import Mathlib

/-!
# Verification of the RBAC "why-can-i" permission resolution engine

Shallow embedding of the Go packages `pkg/rbac` (matcher.go, types, resolver.go)
and `pkg/output` (risky.go), together with theorems settling the specification
claims about rule matching, subject parsing, grant-chain resolution, error
handling and risk classification.
-/

namespace RbacWhy

/-! ## Data model (pkg/rbac/types.go, k8s.io/api/rbac/v1) -/

/-- rbacv1.PolicyRule (the fields the engine reads). -/
structure PolicyRule where
  Verbs : List String := []
  APIGroups : List String := []
  Resources : List String := []
  ResourceNames : List String := []
  deriving Repr, DecidableEq

/-- PermissionRequest from pkg/rbac/types.go. -/
structure PermissionRequest where
  Verb : String := ""
  APIGroup : String := ""
  Resource : String := ""
  Subresource : String := ""
  ResourceName : String := ""
  Namespace : String := ""
  deriving Repr, DecidableEq

/-- Subject from pkg/rbac/types.go (the requester). -/
structure Subject where
  Kind : String := ""
  Name : String := ""
  Namespace : String := ""
  Groups : List String := []
  deriving Repr, DecidableEq

/-- rbacv1.Subject: one entry of a binding's subject list. -/
structure BindingSubject where
  Kind : String := ""
  Name : String := ""
  Namespace : String := ""
  deriving Repr, DecidableEq

/-- rbacv1.RoleRef. -/
structure RoleRef where
  Kind : String := ""
  Name : String := ""
  deriving Repr, DecidableEq

/-- rbacv1.ClusterRoleBinding (fields the resolver reads). -/
structure ClusterRoleBinding where
  Name : String := ""
  Subjects : List BindingSubject := []
  RoleRef : RoleRef := {}
  deriving Repr, DecidableEq

/-- rbacv1.RoleBinding (fields the resolver reads). -/
structure RoleBinding where
  Name : String := ""
  Namespace : String := ""
  Subjects : List BindingSubject := []
  RoleRef : RoleRef := {}
  deriving Repr, DecidableEq

/-- rbacv1.ClusterRole (fields the resolver reads). -/
structure ClusterRole where
  Name : String := ""
  Rules : List PolicyRule := []
  deriving Repr, DecidableEq

/-- rbacv1.Role (fields the resolver reads). -/
structure Role where
  Name : String := ""
  Namespace : String := ""
  Rules : List PolicyRule := []
  deriving Repr, DecidableEq

/-- GrantScope constant ScopeNamespace = "namespace". -/
def ScopeNamespace : String := "namespace"

/-- GrantScope constant ScopeClusterWide = "cluster-wide". -/
def ScopeClusterWide : String := "cluster-wide"

/-- BindingInfo from pkg/rbac/types.go. -/
structure BindingInfo where
  Kind : String := ""
  Name : String := ""
  Namespace : String := ""
  deriving Repr, DecidableEq

/-- RoleInfo from pkg/rbac/types.go. -/
structure RoleInfo where
  Kind : String := ""
  Name : String := ""
  Namespace : String := ""
  deriving Repr, DecidableEq

/-- PermissionGrant from pkg/rbac/types.go. -/
structure PermissionGrant where
  Binding : BindingInfo := {}
  Role : RoleInfo := {}
  MatchingRule : PolicyRule := {}
  Scope : String := ""
  deriving Repr, DecidableEq

/-- PermissionResult from pkg/rbac/types.go; errors are modelled by their
message strings. -/
structure PermissionResult where
  Request : PermissionRequest := {}
  Subject : Subject := {}
  Allowed : Bool := false
  Grants : List PermissionGrant := []
  Errors : List String := []
  deriving Repr, DecidableEq

/-- RiskyPermission from pkg/rbac/types.go. -/
structure RiskyPermission where
  Category : String := ""
  Description : String := ""
  Severity : String := ""
  Grants : List PermissionGrant := []
  deriving Repr, DecidableEq

/-! ## Rule matcher (pkg/rbac/matcher.go) -/

/-- matchesVerb: the requested verb matches a rule verb or the wildcard
(rbacv1.VerbAll = "*"). -/
def matchesVerb (ruleVerbs : List String) (requestVerb : String) : Bool :=
  ruleVerbs.any fun v => v == "*" || v == requestVerb

/-- matchesAPIGroup: the requested group matches a rule group or the wildcard
(rbacv1.APIGroupAll = "*"). -/
def matchesAPIGroup (ruleGroups : List String) (requestGroup : String) : Bool :=
  ruleGroups.any fun g => g == "*" || g == requestGroup

/-- matchesResource from matcher.go: wildcard, exact full-resource match,
`resource/*` against a request with a subresource, or bare resource match
when the request has no subresource. -/
def matchesResource (ruleResources : List String)
    (requestResource requestSubresource : String) : Bool :=
  let fullResource :=
    if requestSubresource != "" then requestResource ++ "/" ++ requestSubresource
    else requestResource
  ruleResources.any fun r =>
    r == "*" || r == fullResource ||
    (requestSubresource != "" && r == requestResource ++ "/*") ||
    (requestSubresource == "" && r == requestResource)

/-- matchesResourceName: exact membership. -/
def matchesResourceName (ruleNames : List String) (requestName : String) : Bool :=
  ruleNames.any fun n => n == requestName

/-- RuleMatches from matcher.go: conjunction of verb, API-group and resource
match, and — only when the rule lists resource names AND the request names
one — membership of the requested name. -/
def RuleMatches (rule : PolicyRule) (request : PermissionRequest) : Bool :=
  matchesVerb rule.Verbs request.Verb &&
  matchesAPIGroup rule.APIGroups request.APIGroup &&
  matchesResource rule.Resources request.Resource request.Subresource &&
  (if rule.ResourceNames.length > 0 && request.ResourceName != "" then
     matchesResourceName rule.ResourceNames request.ResourceName
   else true)

/-- SubjectMatches from matcher.go. -/
def SubjectMatches (bindingSubject : BindingSubject) (requestSubject : Subject) : Bool :=
  bindingSubject.Kind == requestSubject.Kind &&
  bindingSubject.Name == requestSubject.Name &&
  (if requestSubject.Kind == "ServiceAccount" then
     bindingSubject.Namespace == requestSubject.Namespace
   else true)

/-- SubjectMatchesWithGroups from matcher.go. -/
def SubjectMatchesWithGroups (bindingSubject : BindingSubject)
    (requestSubject : Subject) (groups : List String) : Bool :=
  SubjectMatches bindingSubject requestSubject ||
  (bindingSubject.Kind == "Group" && groups.any fun g => bindingSubject.Name == g)

/-- GetImplicitGroups from matcher.go. -/
def GetImplicitGroups (subject : Subject) : List String :=
  let groups := ["system:authenticated"]
  if subject.Kind == "ServiceAccount" then
    groups ++ ["system:serviceaccounts", "system:serviceaccounts:" ++ subject.Namespace]
  else groups

/-! ## Risk classifier data (pkg/output/risky.go) -/

/-- RiskyPattern from pkg/output/risky.go. -/
structure RiskyPattern where
  Category : String := ""
  Severity : String := ""
  Description : String := ""
  Verbs : List String := []
  APIGroups : List String := []
  Resources : List String := []
  deriving Repr, DecidableEq

/-- The static catalog RiskyPatterns from pkg/output/risky.go. -/
def RiskyPatterns : List RiskyPattern :=
  [{ Category := "secrets-access", Severity := "critical",
     Description := "Access to Secrets can expose sensitive credentials, tokens, and keys",
     Verbs := ["get", "list", "watch", "*"], APIGroups := ["", "*"],
     Resources := ["secrets", "*"] },
   { Category := "pod-exec", Severity := "critical",
     Description := "Pod exec allows arbitrary command execution in containers",
     Verbs := ["create", "*"], APIGroups := ["", "*"],
     Resources := ["pods/exec", "*"] },
   { Category := "pod-attach", Severity := "critical",
     Description := "Pod attach allows connecting to running containers",
     Verbs := ["create", "*"], APIGroups := ["", "*"],
     Resources := ["pods/attach", "*"] },
   { Category := "pod-create", Severity := "high",
     Description := "Pod creation can lead to privilege escalation via hostPath, hostPID, etc.",
     Verbs := ["create", "*"], APIGroups := ["", "*"],
     Resources := ["pods", "*"] },
   { Category := "impersonate", Severity := "critical",
     Description := "Impersonation allows assuming other user/group identities",
     Verbs := ["impersonate", "*"], APIGroups := ["", "*"],
     Resources := ["users", "groups", "serviceaccounts", "*"] },
   { Category := "nodes-proxy", Severity := "critical",
     Description := "Node proxy access can execute commands on nodes via kubelet API",
     Verbs := ["get", "create", "*"], APIGroups := ["", "*"],
     Resources := ["nodes/proxy", "*"] },
   { Category := "persistent-volume-create", Severity := "high",
     Description := "PV creation with hostPath can access node filesystem",
     Verbs := ["create", "*"], APIGroups := ["", "*"],
     Resources := ["persistentvolumes", "*"] },
   { Category := "cluster-admin", Severity := "critical",
     Description := "Wildcard access grants full cluster control (cluster-admin equivalent)",
     Verbs := ["*"], APIGroups := ["*"], Resources := ["*"] },
   { Category := "role-escalation", Severity := "critical",
     Description := "Ability to create/modify roles can escalate privileges",
     Verbs := ["create", "update", "patch", "*"],
     APIGroups := ["rbac.authorization.k8s.io", "*"],
     Resources := ["roles", "clusterroles", "*"] },
   { Category := "binding-escalation", Severity := "critical",
     Description := "Ability to create/modify bindings can grant any permissions",
     Verbs := ["create", "update", "patch", "*"],
     APIGroups := ["rbac.authorization.k8s.io", "*"],
     Resources := ["rolebindings", "clusterrolebindings", "*"] },
   { Category := "csr-approve", Severity := "high",
     Description := "CSR approval can issue certificates for any identity",
     Verbs := ["approve", "*"], APIGroups := ["certificates.k8s.io", "*"],
     Resources := ["certificatesigningrequests/approval", "*"] },
   { Category := "token-request", Severity := "high",
     Description := "Token request can generate tokens for any service account",
     Verbs := ["create", "*"], APIGroups := ["", "*"],
     Resources := ["serviceaccounts/token", "*"] }]

/-- matchesRiskyPattern from pkg/output/risky.go.  Note the asymmetry the
source has on the verb axis: a pattern-side "*" is only compared by equality
there, while on the API-group and resource axes a pattern-side "*" matches
any rule entry. -/
def matchesRiskyPattern (rule : PolicyRule) (pat : RiskyPattern) : Bool :=
  (pat.Verbs.any fun pv => rule.Verbs.any fun rv => rv == pv || rv == "*") &&
  (pat.APIGroups.any fun pg => rule.APIGroups.any fun rg =>
    rg == pg || rg == "*" || pg == "*") &&
  (pat.Resources.any fun pr => rule.Resources.any fun rr =>
    rr == pr || rr == "*" || pr == "*")

/-- The spec's notion of overlap on one axis: the rule side holds the
wildcard, or the signature side holds the wildcard, or an exact element is
shared.  Written from the spec's words, for comparison with the source's
matchesRiskyPattern. -/
def overlapSpec (ruleSide sigSide : List String) : Prop :=
  "*" ∈ ruleSide ∨ "*" ∈ sigSide ∨ ∃ x ∈ sigSide, x ∈ ruleSide

instance (ruleSide sigSide : List String) : Decidable (overlapSpec ruleSide sigSide) := by
  unfold overlapSpec
  infer_instance

/-! ## Claim C1: resource-name axis of RuleMatches -/

/-- C1: when the verb, API-group and resource axes all match, RuleMatches is
decided purely by the resource-name policy: a rule with ResourceNames still
matches a nameless request; with a named request it matches iff the name is a
member; a rule without ResourceNames matches every requested name. -/
theorem ruleMatches_resourceName_policy (rule : PolicyRule) (request : PermissionRequest)
    (hv : matchesVerb rule.Verbs request.Verb = true)
    (hg : matchesAPIGroup rule.APIGroups request.APIGroup = true)
    (hr : matchesResource rule.Resources request.Resource request.Subresource = true) :
    (rule.ResourceNames ≠ [] → request.ResourceName = "" →
      RuleMatches rule request = true) ∧
    (rule.ResourceNames ≠ [] → request.ResourceName ≠ "" →
      (RuleMatches rule request = true ↔ request.ResourceName ∈ rule.ResourceNames)) ∧
    (rule.ResourceNames = [] → RuleMatches rule request = true) := by
  unfold RuleMatches
  rw [hv, hg, hr]
  simp only [Bool.true_and]
  refine ⟨?_, ?_, ?_⟩
  · intro _ hname
    simp [hname]
  · intro hne hname
    have hlen : rule.ResourceNames.length > 0 := by
      cases h : rule.ResourceNames with
      | nil => exact absurd h hne
      | cons a l => simp [h]
    have : (request.ResourceName != "") = true := by
      simpa [bne_iff_ne] using hname
    have hcond : (decide (rule.ResourceNames.length > 0) && (request.ResourceName != "")) = true := by
      simp [hlen, this]
    simp only [hcond, if_true]
    unfold matchesResourceName
    simp [List.any_eq_true, beq_iff_eq]
  · intro hempty
    simp [hempty]

/-- Witness for C1 at concrete inputs. -/
theorem ruleMatches_resourceName_policy_witness :
    (matchesVerb ["get"] "get" = true) ∧
    (matchesAPIGroup [""] "" = true) ∧
    (matchesResource ["pods"] "pods" "" = true) ∧
    ((["p1"] : List String) ≠ [] → ("n1" : String) ≠ "" →
      (RuleMatches { Verbs := ["get"], APIGroups := [""], Resources := ["pods"],
                     ResourceNames := ["p1"] }
        { Verb := "get", APIGroup := "", Resource := "pods", ResourceName := "n1" } = true ↔
       ("n1" : String) ∈ ["p1"])) := by
  refine ⟨by decide, by decide, by decide, ?_⟩
  exact (ruleMatches_resourceName_policy
    { Verbs := ["get"], APIGroups := [""], Resources := ["pods"], ResourceNames := ["p1"] }
    { Verb := "get", APIGroup := "", Resource := "pods", ResourceName := "n1" }
    (by decide) (by decide) (by decide)).2.1

/-! ## Claim C3: subresource wildcard `r/*` -/

/-- C3: a rule whose resource list is exactly [r ++ "/*"] matches the request
(r, s) for every non-empty subresource s, and never matches (r, ""). -/
theorem resource_subresource_wildcard (r s : String) (hs : s ≠ "") :
    matchesResource [r ++ "/*"] r s = true ∧
    matchesResource [r ++ "/*"] r "" = false := by
  constructor
  · unfold matchesResource
    have hs' : (s != "") = true := by simpa [bne_iff_ne] using hs
    simp [hs']
  · unfold matchesResource
    have hl2 : ("/*" : String).length = 2 := rfl
    have hl1 : ("*" : String).length = 1 := rfl
    have h1 : r ++ "/*" ≠ "*" := by
      intro h
      have := congrArg String.length h
      rw [String.length_append, hl2, hl1] at this
      omega
    have h2 : r ++ "/*" ≠ r := by
      intro h
      have := congrArg String.length h
      rw [String.length_append, hl2] at this
      omega
    simp [h1, h2]

/-- Witness for C3 at r = "pods", s = "exec". -/
theorem resource_subresource_wildcard_witness :
    matchesResource ["pods" ++ "/*"] "pods" "exec" = true ∧
    matchesResource ["pods" ++ "/*"] "pods" "" = false :=
  resource_subresource_wildcard "pods" "exec" (by decide)

/-! ## Claim C8: implicit groups -/

/-- C8: a ServiceAccount subject in namespace ns gets exactly
[system:authenticated, system:serviceaccounts, system:serviceaccounts:ns] in
that order; a User or Group subject gets exactly [system:authenticated]. -/
theorem getImplicitGroups_spec (s : Subject) :
    (s.Kind = "ServiceAccount" →
      GetImplicitGroups s =
        ["system:authenticated", "system:serviceaccounts",
         "system:serviceaccounts:" ++ s.Namespace]) ∧
    (s.Kind = "User" ∨ s.Kind = "Group" →
      GetImplicitGroups s = ["system:authenticated"]) := by
  constructor
  · intro h
    simp [GetImplicitGroups, h]
  · intro h
    have : s.Kind ≠ "ServiceAccount" := by
      rcases h with h | h <;> simp [h]
    simp [GetImplicitGroups, this]

/-- Witness for C8 at a concrete ServiceAccount and a concrete User. -/
theorem getImplicitGroups_spec_witness :
    GetImplicitGroups { Kind := "ServiceAccount", Name := "sa", Namespace := "default" } =
      ["system:authenticated", "system:serviceaccounts",
       "system:serviceaccounts:" ++ "default"] ∧
    GetImplicitGroups { Kind := "User", Name := "jane" } = ["system:authenticated"] :=
  ⟨(getImplicitGroups_spec { Kind := "ServiceAccount", Name := "sa", Namespace := "default" }).1
      rfl,
   (getImplicitGroups_spec { Kind := "User", Name := "jane" }).2 (Or.inl rfl)⟩

/-! ## Claim C2: matchesRiskyPattern vs the spec's symmetric overlap

The source is NOT symmetric: on the verb axis a signature-side "*" is only
compared by string equality, and on every axis an empty rule-side list can
never overlap.  The spec's symmetric-overlap description is refuted below and
an amended characterisation is proved. -/

/-- Every signature in the catalog is non-empty on all three axes. -/
theorem riskyPatterns_axes_nonempty :
    ∀ p ∈ RiskyPatterns, p.Verbs ≠ [] ∧ p.APIGroups ≠ [] ∧ p.Resources ≠ [] := by
  decide

/-- The cluster-admin signature of the catalog. -/
def clusterAdminPattern : RiskyPattern :=
  { Category := "cluster-admin", Severity := "critical",
    Description := "Wildcard access grants full cluster control (cluster-admin equivalent)",
    Verbs := ["*"], APIGroups := ["*"], Resources := ["*"] }

/-- C2 counterexample: for the catalog's cluster-admin signature the claimed
symmetric overlap fails twice over.  The rule (verbs=[get], groups=[*],
resources=[*]) overlaps the signature on all three axes in the claim's sense
(the signature's verb list holds the wildcard), yet matchesRiskyPattern
rejects it; and a rule with an empty APIGroups list also overlaps in the
claim's sense yet is rejected. -/
theorem matchesRiskyPattern_overlap_counterexample :
    clusterAdminPattern ∈ RiskyPatterns ∧
    (overlapSpec (PolicyRule.Verbs { Verbs := ["get"], APIGroups := ["*"], Resources := ["*"] })
        clusterAdminPattern.Verbs ∧
     overlapSpec (PolicyRule.APIGroups { Verbs := ["get"], APIGroups := ["*"], Resources := ["*"] })
        clusterAdminPattern.APIGroups ∧
     overlapSpec (PolicyRule.Resources { Verbs := ["get"], APIGroups := ["*"], Resources := ["*"] })
        clusterAdminPattern.Resources) ∧
    matchesRiskyPattern { Verbs := ["get"], APIGroups := ["*"], Resources := ["*"] }
      clusterAdminPattern = false ∧
    (overlapSpec (PolicyRule.APIGroups { Verbs := ["*"], APIGroups := [], Resources := ["*"] })
        clusterAdminPattern.APIGroups) ∧
    matchesRiskyPattern { Verbs := ["*"], APIGroups := [], Resources := ["*"] }
      clusterAdminPattern = false := by
  decide

/-- The verb axis of matchesRiskyPattern (rule side R, signature side P):
with a non-empty signature side it holds iff the rule holds the wildcard or
shares an exact verb with the signature. -/
theorem verbAxis_iff (R P : List String) (hP : P ≠ []) :
    (P.any fun pv => R.any fun rv => rv == pv || rv == "*") = true ↔
      ("*" ∈ R ∨ ∃ v ∈ P, v ∈ R) := by
  simp only [List.any_eq_true, Bool.or_eq_true, beq_iff_eq]
  constructor
  · rintro ⟨pv, hpv, rv, hrv, h⟩
    rcases h with h | h
    · subst h; exact Or.inr ⟨rv, hpv, hrv⟩
    · subst h; exact Or.inl hrv
  · rintro (hw | ⟨v, hvP, hvR⟩)
    · obtain ⟨p0, hp0⟩ := List.exists_mem_of_ne_nil P hP
      exact ⟨p0, hp0, "*", hw, by tauto⟩
    · exact ⟨v, hvP, v, hvR, by tauto⟩

/-- The API-group / resource axes of matchesRiskyPattern (rule side R,
signature side P): with a non-empty signature side they hold iff the rule
side is non-empty and the two sides overlap in the spec's symmetric sense. -/
theorem symAxis_iff (R P : List String) (hP : P ≠ []) :
    (P.any fun pg => R.any fun rg => rg == pg || rg == "*" || pg == "*") = true ↔
      (R ≠ [] ∧ overlapSpec R P) := by
  unfold overlapSpec
  simp only [List.any_eq_true, Bool.or_eq_true, beq_iff_eq]
  constructor
  · rintro ⟨pg, hpg, rg, hrg, h⟩
    refine ⟨List.ne_nil_of_mem hrg, ?_⟩
    rcases h with h | h
    · rcases h with h | h
      · subst h; exact Or.inr (Or.inr ⟨rg, hpg, hrg⟩)
      · subst h; exact Or.inl hrg
    · subst h; exact Or.inr (Or.inl hpg)
  · rintro ⟨hRne, hw | hw | ⟨x, hxP, hxR⟩⟩
    · obtain ⟨p0, hp0⟩ := List.exists_mem_of_ne_nil P hP
      exact ⟨p0, hp0, "*", hw, by tauto⟩
    · obtain ⟨r0, hr0⟩ := List.exists_mem_of_ne_nil R hRne
      exact ⟨"*", hw, r0, hr0, by tauto⟩
    · exact ⟨x, hxP, x, hxR, by tauto⟩

/-- C2 amended: for every rule and every signature of the catalog,
matchesRiskyPattern holds iff the three axes overlap, where on the verb axis
overlap requires the rule's wildcard or an exact shared verb (a
signature-side wildcard does not count), and on the API-group and resource
axes overlap is the spec's symmetric notion but additionally requires the
rule's list to be non-empty. -/
theorem matchesRiskyPattern_amended (rule : PolicyRule) (p : RiskyPattern)
    (hp : p ∈ RiskyPatterns) :
    matchesRiskyPattern rule p = true ↔
      (("*" ∈ rule.Verbs ∨ ∃ v ∈ p.Verbs, v ∈ rule.Verbs) ∧
       (rule.APIGroups ≠ [] ∧ overlapSpec rule.APIGroups p.APIGroups) ∧
       (rule.Resources ≠ [] ∧ overlapSpec rule.Resources p.Resources)) := by
  obtain ⟨hv, hg, hr⟩ := riskyPatterns_axes_nonempty p hp
  unfold matchesRiskyPattern
  rw [Bool.and_eq_true, Bool.and_eq_true]
  constructor
  · rintro ⟨⟨h1, h2⟩, h3⟩
    exact ⟨(verbAxis_iff _ _ hv).1 h1, (symAxis_iff _ _ hg).1 h2,
           (symAxis_iff _ _ hr).1 h3⟩
  · rintro ⟨h1, h2, h3⟩
    exact ⟨⟨(verbAxis_iff _ _ hv).2 h1, (symAxis_iff _ _ hg).2 h2⟩,
           (symAxis_iff _ _ hr).2 h3⟩

/-- Witness for the amended C2 at a concrete rule and the cluster-admin
signature. -/
theorem matchesRiskyPattern_amended_witness :
    clusterAdminPattern ∈ RiskyPatterns ∧
    (matchesRiskyPattern { Verbs := ["*"], APIGroups := ["*"], Resources := ["*"] }
        clusterAdminPattern = true ↔
      (("*" ∈ (["*"] : List String) ∨ ∃ v ∈ clusterAdminPattern.Verbs, v ∈ (["*"] : List String)) ∧
       ((["*"] : List String) ≠ [] ∧ overlapSpec ["*"] clusterAdminPattern.APIGroups) ∧
       ((["*"] : List String) ≠ [] ∧ overlapSpec ["*"] clusterAdminPattern.Resources))) :=
  ⟨by decide,
   matchesRiskyPattern_amended
     { Verbs := ["*"], APIGroups := ["*"], Resources := ["*"] }
     clusterAdminPattern (by decide)⟩

/-! ## Subject parsing (pkg/rbac/resolver.go, ParseSubject) -/

/-- Character-list prefix test: isPre p s is true iff p is a prefix of s. -/
def isPre : List Char → List Char → Bool
  | [], _ => true
  | _ :: _, [] => false
  | p :: ps, c :: cs => p == c && isPre ps cs

/-- strings.HasPrefix(s, p). -/
def hasPfx (s p : String) : Bool := isPre p.data s.data

/-- strings.Split(s, ":") on the character list: split at every colon. -/
def splitCh : List Char → List (List Char)
  | [] => [[]]
  | c :: cs =>
    if c = ':' then [] :: splitCh cs
    else
      match splitCh cs with
      | [] => [[c]]
      | h :: t => (c :: h) :: t

/-- strings.Split(s, ":"). -/
def splitColon (s : String) : List String := (splitCh s.data).map fun l => String.mk l

/-- ParseSubject from pkg/rbac/resolver.go. -/
def ParseSubject (s : String) : Except String Subject :=
  if s = "" then .error "subject cannot be empty"
  else if hasPfx s "system:serviceaccount:" then
    let parts := splitColon s
    if h : parts.length = 4 then
      .ok { Kind := "ServiceAccount",
            Name := parts.get ⟨3, by omega⟩,
            Namespace := parts.get ⟨2, by omega⟩ }
    else
      .error ("invalid serviceaccount format: " ++ s ++
        " (expected system:serviceaccount:namespace:name)")
  else if hasPfx s "system:" then
    .ok { Kind := "Group", Name := s }
  else
    .ok { Kind := "User", Name := s }

/-- Prefix transitivity on character lists. -/
theorem isPre_trans : ∀ p q r : List Char,
    isPre p q = true → isPre q r = true → isPre p r = true := by
  intro p
  induction p with
  | nil => intro q r _ _; rfl
  | cons a ps ih =>
    intro q r hpq hqr
    cases q with
    | nil => simp [isPre] at hpq
    | cons b qs =>
      cases r with
      | nil => simp [isPre] at hqr
      | cons c rs =>
        simp only [isPre, Bool.and_eq_true, beq_iff_eq] at hpq hqr ⊢
        obtain ⟨rfl, h1⟩ := hpq
        obtain ⟨rfl, h2⟩ := hqr
        exact ⟨rfl, ih qs rs h1 h2⟩

/-- A string with the serviceaccount prefix also has the "system:" prefix. -/
theorem hasPfx_system_of_sa (s : String)
    (h : hasPfx s "system:serviceaccount:" = true) : hasPfx s "system:" = true := by
  unfold hasPfx at h ⊢
  exact isPre_trans _ _ _ (by decide) h

/-- A string with the serviceaccount prefix is non-empty. -/
theorem ne_empty_of_sa (s : String)
    (h : hasPfx s "system:serviceaccount:" = true) : s ≠ "" := by
  intro he
  subst he
  simp [hasPfx, isPre] at h

/-- A string with the "system:" prefix is non-empty. -/
theorem ne_empty_of_system (s : String)
    (h : hasPfx s "system:" = true) : s ≠ "" := by
  intro he
  subst he
  simp [hasPfx, isPre] at h

/-- C7: ParseSubject errors on the empty string; errors on a
system:serviceaccount:-prefixed string that does not split on colons into
exactly four fields; returns the ServiceAccount subject carrying the third
field as namespace and the fourth as name when it does; returns a Group for
any other system:-prefixed string; and returns a User for everything else. -/
theorem parseSubject_spec (s : String) :
    (ParseSubject "" = .error "subject cannot be empty") ∧
    (hasPfx s "system:serviceaccount:" = true → (splitColon s).length ≠ 4 →
      ParseSubject s = .error ("invalid serviceaccount format: " ++ s ++
        " (expected system:serviceaccount:namespace:name)")) ∧
    (∀ hlen : (splitColon s).length = 4, hasPfx s "system:serviceaccount:" = true →
      ParseSubject s = .ok { Kind := "ServiceAccount",
                             Name := (splitColon s).get ⟨3, by omega⟩,
                             Namespace := (splitColon s).get ⟨2, by omega⟩ }) ∧
    (hasPfx s "system:" = true → hasPfx s "system:serviceaccount:" = false →
      ParseSubject s = .ok { Kind := "Group", Name := s }) ∧
    (s ≠ "" → hasPfx s "system:" = false →
      ParseSubject s = .ok { Kind := "User", Name := s }) := by
  refine ⟨rfl, ?_, ?_, ?_, ?_⟩
  · intro hsa hlen
    have hne := ne_empty_of_sa s hsa
    simp only [ParseSubject, hne, if_false, hsa, if_true, dif_neg hlen]
  · intro hlen hsa
    have hne := ne_empty_of_sa s hsa
    simp only [ParseSubject, hne, if_false, hsa, if_true, dif_pos hlen]
  · intro hsys hsa
    have hne := ne_empty_of_system s hsys
    simp only [ParseSubject, hne, if_false, hsa, hsys, if_true, Bool.false_eq_true]
  · intro hne hsys
    have hsa : hasPfx s "system:serviceaccount:" = false := by
      cases h : hasPfx s "system:serviceaccount:" with
      | false => rfl
      | true => rw [hasPfx_system_of_sa s h] at hsys; cases hsys
    simp only [ParseSubject, hne, if_false, hsa, hsys, Bool.false_eq_true]

/-- Witness for C7: the serviceaccount case at a concrete identifier. -/
theorem parseSubject_spec_witness :
    (splitColon "system:serviceaccount:default:my-sa").length = 4 ∧
    hasPfx "system:serviceaccount:default:my-sa" "system:serviceaccount:" = true ∧
    ParseSubject "system:serviceaccount:default:my-sa" =
      .ok { Kind := "ServiceAccount", Name := "my-sa", Namespace := "default" } := by
  refine ⟨by decide, by decide, ?_⟩
  rw [(parseSubject_spec "system:serviceaccount:default:my-sa").2.2.1 (by decide) (by decide)]
  rfl

/-! ## Grant chain resolver (pkg/rbac/resolver.go)

The RBAC data source (pkg/client.RBACClient) is modelled as a record of the
four read operations, each of which may fail with an error message. -/

/-- The RBAC data source: two list calls and two per-object get calls. -/
structure RBACClient where
  ListClusterRoleBindings : Except String (List ClusterRoleBinding)
  ListRoleBindings : String → Except String (List RoleBinding)
  GetClusterRole : String → Except String ClusterRole
  GetRole : String → String → Except String Role

/-- bindingMatchesSubject from resolver.go. -/
def bindingMatchesSubject (subjects : List BindingSubject) (subject : Subject)
    (groups : List String) : Bool :=
  subjects.any fun s => SubjectMatchesWithGroups s subject groups

/-- The grant emitted for a matching rule found through a ClusterRoleBinding. -/
def clusterGrant (crb : ClusterRoleBinding) (cr : ClusterRole)
    (rule : PolicyRule) : PermissionGrant :=
  { Binding := { Kind := "ClusterRoleBinding", Name := crb.Name },
    Role := { Kind := "ClusterRole", Name := cr.Name },
    MatchingRule := rule, Scope := ScopeClusterWide }

/-- The grant emitted for a matching rule found through a RoleBinding. -/
def nsGrant (rb : RoleBinding) (roleInfo : RoleInfo) (rule : PolicyRule) : PermissionGrant :=
  { Binding := { Kind := "RoleBinding", Name := rb.Name, Namespace := rb.Namespace },
    Role := roleInfo, MatchingRule := rule, Scope := ScopeNamespace }

/-- Inner rule loop of the ClusterRoleBinding pass of ResolvePermission. -/
def processClusterRule (crb : ClusterRoleBinding) (cr : ClusterRole)
    (request : PermissionRequest) (grants : List PermissionGrant)
    (rule : PolicyRule) : List PermissionGrant :=
  if RuleMatches rule request then grants ++ [clusterGrant crb cr rule] else grants

/-- Inner rule loop of the RoleBinding pass of ResolvePermission. -/
def processNamespaceRule (rb : RoleBinding) (roleInfo : RoleInfo)
    (request : PermissionRequest) (grants : List PermissionGrant)
    (rule : PolicyRule) : List PermissionGrant :=
  if RuleMatches rule request then grants ++ [nsGrant rb roleInfo rule] else grants

/-- One iteration of the ClusterRoleBinding loop of ResolvePermission: the
state carries the grants and the accumulated non-fatal errors. -/
def processCRB (c : RBACClient) (subject : Subject) (groups : List String)
    (request : PermissionRequest) (st : List PermissionGrant × List String)
    (crb : ClusterRoleBinding) : List PermissionGrant × List String :=
  if bindingMatchesSubject crb.Subjects subject groups then
    match c.GetClusterRole crb.RoleRef.Name with
    | .error e =>
      (st.1, st.2 ++ ["failed to get cluster role " ++ crb.RoleRef.Name ++ ": " ++ e])
    | .ok cr => (cr.Rules.foldl (processClusterRule crb cr request) st.1, st.2)
  else st

/-- One iteration of the RoleBinding loop of ResolvePermission. -/
def processRB (c : RBACClient) (subject : Subject) (groups : List String)
    (request : PermissionRequest) (st : List PermissionGrant × List String)
    (rb : RoleBinding) : List PermissionGrant × List String :=
  if bindingMatchesSubject rb.Subjects subject groups then
    if rb.RoleRef.Kind = "ClusterRole" then
      match c.GetClusterRole rb.RoleRef.Name with
      | .error e =>
        (st.1, st.2 ++ ["failed to get cluster role " ++ rb.RoleRef.Name ++ ": " ++ e])
      | .ok cr =>
        (cr.Rules.foldl
          (processNamespaceRule rb { Kind := "ClusterRole", Name := cr.Name } request)
          st.1, st.2)
    else
      match c.GetRole request.Namespace rb.RoleRef.Name with
      | .error e =>
        (st.1, st.2 ++ ["failed to get role " ++ rb.RoleRef.Name ++ " in namespace " ++
          request.Namespace ++ ": " ++ e])
      | .ok role =>
        (role.Rules.foldl
          (processNamespaceRule rb
            { Kind := "Role", Name := role.Name, Namespace := role.Namespace } request)
          st.1, st.2)
  else st

/-- ResolvePermission from pkg/rbac/resolver.go. -/
def ResolvePermission (c : RBACClient) (subject : Subject)
    (request : PermissionRequest) : Except String PermissionResult :=
  let groups := GetImplicitGroups subject
  match c.ListClusterRoleBindings with
  | .error e => .error ("failed to list cluster role bindings: " ++ e)
  | .ok crbs =>
    let st := crbs.foldl (processCRB c subject groups request) ([], [])
    if request.Namespace != "" then
      match c.ListRoleBindings request.Namespace with
      | .error e =>
        .error ("failed to list role bindings in namespace " ++ request.Namespace ++ ": " ++ e)
      | .ok rbs =>
        let st2 := rbs.foldl (processRB c subject groups request) st
        .ok { Request := request, Subject := subject,
              Allowed := decide (st2.1.length > 0), Grants := st2.1, Errors := st2.2 }
    else
      .ok { Request := request, Subject := subject,
            Allowed := decide (st.1.length > 0), Grants := st.1, Errors := st.2 }

/-- One iteration of the ClusterRoleBinding loop of ResolveAllPermissions:
every rule of the fetched role is collected, and a fetch failure is silently
skipped. -/
def allProcessCRB (c : RBACClient) (subject : Subject) (groups : List String)
    (grants : List PermissionGrant) (crb : ClusterRoleBinding) : List PermissionGrant :=
  if bindingMatchesSubject crb.Subjects subject groups then
    match c.GetClusterRole crb.RoleRef.Name with
    | .error _ => grants
    | .ok cr => cr.Rules.foldl (fun gs rule => gs ++ [clusterGrant crb cr rule]) grants
  else grants

/-- One iteration of the RoleBinding loop of ResolveAllPermissions. -/
def allProcessRB (c : RBACClient) (subject : Subject) (groups : List String)
    (ns : String) (grants : List PermissionGrant) (rb : RoleBinding) : List PermissionGrant :=
  if bindingMatchesSubject rb.Subjects subject groups then
    if rb.RoleRef.Kind = "ClusterRole" then
      match c.GetClusterRole rb.RoleRef.Name with
      | .error _ => grants
      | .ok cr =>
        cr.Rules.foldl
          (fun gs rule => gs ++ [nsGrant rb { Kind := "ClusterRole", Name := cr.Name } rule])
          grants
    else
      match c.GetRole ns rb.RoleRef.Name with
      | .error _ => grants
      | .ok role =>
        role.Rules.foldl
          (fun gs rule => gs ++
            [nsGrant rb { Kind := "Role", Name := role.Name, Namespace := role.Namespace } rule])
          grants
  else grants

/-- ResolveAllPermissions from pkg/rbac/resolver.go. -/
def ResolveAllPermissions (c : RBACClient) (subject : Subject) (ns : String) :
    Except String (List PermissionGrant) :=
  let groups := GetImplicitGroups subject
  match c.ListClusterRoleBindings with
  | .error e => .error ("failed to list cluster role bindings: " ++ e)
  | .ok crbs =>
    let grants := crbs.foldl (allProcessCRB c subject groups) []
    if ns != "" then
      match c.ListRoleBindings ns with
      | .error e => .error ("failed to list role bindings: " ++ e)
      | .ok rbs => .ok (rbs.foldl (allProcessRB c subject groups ns) grants)
    else .ok grants

/-! ### Specification-level characterisations of the resolver output -/

/-- The grant chains one ClusterRoleBinding contributes to ResolvePermission:
nothing when the subject does not match or the role fetch fails, else one
grant per satisfying rule in rule order. -/
def crbChain (c : RBACClient) (subject : Subject) (groups : List String)
    (request : PermissionRequest) (crb : ClusterRoleBinding) : List PermissionGrant :=
  if bindingMatchesSubject crb.Subjects subject groups then
    match c.GetClusterRole crb.RoleRef.Name with
    | .error _ => []
    | .ok cr => (cr.Rules.filter fun rule => RuleMatches rule request).map (clusterGrant crb cr)
  else []

/-- The non-fatal errors one ClusterRoleBinding contributes. -/
def crbErr (c : RBACClient) (subject : Subject) (groups : List String)
    (crb : ClusterRoleBinding) : List String :=
  if bindingMatchesSubject crb.Subjects subject groups then
    match c.GetClusterRole crb.RoleRef.Name with
    | .error e => ["failed to get cluster role " ++ crb.RoleRef.Name ++ ": " ++ e]
    | .ok _ => []
  else []

/-- The grant chains one RoleBinding contributes to ResolvePermission. -/
def rbChain (c : RBACClient) (subject : Subject) (groups : List String)
    (request : PermissionRequest) (rb : RoleBinding) : List PermissionGrant :=
  if bindingMatchesSubject rb.Subjects subject groups then
    if rb.RoleRef.Kind = "ClusterRole" then
      match c.GetClusterRole rb.RoleRef.Name with
      | .error _ => []
      | .ok cr =>
        (cr.Rules.filter fun rule => RuleMatches rule request).map
          (nsGrant rb { Kind := "ClusterRole", Name := cr.Name })
    else
      match c.GetRole request.Namespace rb.RoleRef.Name with
      | .error _ => []
      | .ok role =>
        (role.Rules.filter fun rule => RuleMatches rule request).map
          (nsGrant rb { Kind := "Role", Name := role.Name, Namespace := role.Namespace })
  else []

/-- The non-fatal errors one RoleBinding contributes. -/
def rbErr (c : RBACClient) (subject : Subject) (groups : List String)
    (request : PermissionRequest) (rb : RoleBinding) : List String :=
  if bindingMatchesSubject rb.Subjects subject groups then
    if rb.RoleRef.Kind = "ClusterRole" then
      match c.GetClusterRole rb.RoleRef.Name with
      | .error e => ["failed to get cluster role " ++ rb.RoleRef.Name ++ ": " ++ e]
      | .ok _ => []
    else
      match c.GetRole request.Namespace rb.RoleRef.Name with
      | .error e =>
        ["failed to get role " ++ rb.RoleRef.Name ++ " in namespace " ++
          request.Namespace ++ ": " ++ e]
      | .ok _ => []
  else []

/-- All cluster-scope grant chains, in binding order then rule order. -/
def clusterChains (c : RBACClient) (subject : Subject) (groups : List String)
    (request : PermissionRequest) (crbs : List ClusterRoleBinding) : List PermissionGrant :=
  crbs.flatMap (crbChain c subject groups request)

/-- All non-fatal errors of the cluster pass, in binding order. -/
def clusterErrors (c : RBACClient) (subject : Subject) (groups : List String)
    (crbs : List ClusterRoleBinding) : List String :=
  crbs.flatMap (crbErr c subject groups)

/-- All namespace-scope grant chains, in binding order then rule order. -/
def nsChains (c : RBACClient) (subject : Subject) (groups : List String)
    (request : PermissionRequest) (rbs : List RoleBinding) : List PermissionGrant :=
  rbs.flatMap (rbChain c subject groups request)

/-- All non-fatal errors of the namespace pass, in binding order. -/
def nsErrors (c : RBACClient) (subject : Subject) (groups : List String)
    (request : PermissionRequest) (rbs : List RoleBinding) : List String :=
  rbs.flatMap (rbErr c subject groups request)

/-- What one ClusterRoleBinding contributes to ResolveAllPermissions: one
grant per rule of the fetched role, nothing on subject mismatch or fetch
failure. -/
def allCrbInventory (c : RBACClient) (subject : Subject) (groups : List String)
    (crb : ClusterRoleBinding) : List PermissionGrant :=
  if bindingMatchesSubject crb.Subjects subject groups then
    match c.GetClusterRole crb.RoleRef.Name with
    | .error _ => []
    | .ok cr => cr.Rules.map (clusterGrant crb cr)
  else []

/-- What one RoleBinding contributes to ResolveAllPermissions. -/
def allRbInventory (c : RBACClient) (subject : Subject) (groups : List String)
    (ns : String) (rb : RoleBinding) : List PermissionGrant :=
  if bindingMatchesSubject rb.Subjects subject groups then
    if rb.RoleRef.Kind = "ClusterRole" then
      match c.GetClusterRole rb.RoleRef.Name with
      | .error _ => []
      | .ok cr => cr.Rules.map (nsGrant rb { Kind := "ClusterRole", Name := cr.Name })
    else
      match c.GetRole ns rb.RoleRef.Name with
      | .error _ => []
      | .ok role =>
        role.Rules.map (nsGrant rb { Kind := "Role", Name := role.Name, Namespace := role.Namespace })
  else []

/-! ### Fold characterisation lemmas -/

/-- A fold that appends a block per element is the flat map of the blocks. -/
theorem foldl_single_flatMap {α β : Type} (step : List β → α → List β)
    (f : α → List β) (hstep : ∀ acc a, step acc a = acc ++ f a) :
    ∀ (l : List α) (acc : List β), l.foldl step acc = acc ++ l.flatMap f := by
  intro l
  induction l with
  | nil => intro acc; simp
  | cons a t ih =>
    intro acc
    rw [List.foldl_cons, hstep, ih]
    simp [List.append_assoc]

/-- A pair-state fold whose step appends a block to each component is the
pair of flat maps. -/
theorem foldl_pair_flatMap {α β γ : Type} (step : (List β × List γ) → α → (List β × List γ))
    (f : α → List β) (g : α → List γ)
    (hstep : ∀ st a, step st a = (st.1 ++ f a, st.2 ++ g a)) :
    ∀ (l : List α) (st : List β × List γ),
      l.foldl step st = (st.1 ++ l.flatMap f, st.2 ++ l.flatMap g) := by
  intro l
  induction l with
  | nil => intro st; cases st; simp
  | cons a t ih =>
    intro st
    rw [List.foldl_cons, hstep, ih]
    simp [List.append_assoc]

/-- The inner rule loop of the cluster pass keeps the matching rules, in rule
order. -/
theorem foldl_processClusterRule (crb : ClusterRoleBinding) (cr : ClusterRole)
    (request : PermissionRequest) :
    ∀ (rules : List PolicyRule) (acc : List PermissionGrant),
      rules.foldl (processClusterRule crb cr request) acc =
        acc ++ (rules.filter fun rule => RuleMatches rule request).map (clusterGrant crb cr) := by
  intro rules
  induction rules with
  | nil => intro acc; simp
  | cons r t ih =>
    intro acc
    rw [List.foldl_cons]
    by_cases h : RuleMatches r request = true
    · simp [processClusterRule, h, ih, List.filter_cons, List.append_assoc]
    · simp [processClusterRule, h, ih, List.filter_cons]

/-- The inner rule loop of the namespace pass keeps the matching rules, in
rule order. -/
theorem foldl_processNamespaceRule (rb : RoleBinding) (roleInfo : RoleInfo)
    (request : PermissionRequest) :
    ∀ (rules : List PolicyRule) (acc : List PermissionGrant),
      rules.foldl (processNamespaceRule rb roleInfo request) acc =
        acc ++ (rules.filter fun rule => RuleMatches rule request).map (nsGrant rb roleInfo) := by
  intro rules
  induction rules with
  | nil => intro acc; simp
  | cons r t ih =>
    intro acc
    rw [List.foldl_cons]
    by_cases h : RuleMatches r request = true
    · simp [processNamespaceRule, h, ih, List.filter_cons, List.append_assoc]
    · simp [processNamespaceRule, h, ih, List.filter_cons]

/-- One cluster-binding step appends exactly that binding's chains and
errors. -/
theorem processCRB_eq (c : RBACClient) (subject : Subject) (groups : List String)
    (request : PermissionRequest) (st : List PermissionGrant × List String)
    (crb : ClusterRoleBinding) :
    processCRB c subject groups request st crb =
      (st.1 ++ crbChain c subject groups request crb,
       st.2 ++ crbErr c subject groups crb) := by
  unfold processCRB crbChain crbErr
  by_cases h : bindingMatchesSubject crb.Subjects subject groups = true
  · simp only [h, if_true]
    cases hc : c.GetClusterRole crb.RoleRef.Name with
    | error e => simp
    | ok cr => simp [foldl_processClusterRule]
  · simp [h]

/-- One role-binding step appends exactly that binding's chains and errors. -/
theorem processRB_eq (c : RBACClient) (subject : Subject) (groups : List String)
    (request : PermissionRequest) (st : List PermissionGrant × List String)
    (rb : RoleBinding) :
    processRB c subject groups request st rb =
      (st.1 ++ rbChain c subject groups request rb,
       st.2 ++ rbErr c subject groups request rb) := by
  unfold processRB rbChain rbErr
  by_cases h : bindingMatchesSubject rb.Subjects subject groups = true
  · simp only [h, if_true]
    by_cases hk : rb.RoleRef.Kind = "ClusterRole"
    · simp only [hk, if_true]
      cases hc : c.GetClusterRole rb.RoleRef.Name with
      | error e => simp
      | ok cr => simp [foldl_processNamespaceRule]
    · simp only [hk, if_false]
      cases hc : c.GetRole request.Namespace rb.RoleRef.Name with
      | error e => simp
      | ok role => simp [foldl_processNamespaceRule]
  · simp [h]

/-- A fatal failure of the cluster-role-binding list call. -/
theorem resolvePermission_fatal_crbList (c : RBACClient) (subject : Subject)
    (request : PermissionRequest) (e : String)
    (hc : c.ListClusterRoleBindings = .error e) :
    ResolvePermission c subject request =
      .error ("failed to list cluster role bindings: " ++ e) := by
  unfold ResolvePermission
  rw [hc]

/-- A fatal failure of the role-binding list call. -/
theorem resolvePermission_fatal_rbList (c : RBACClient) (subject : Subject)
    (request : PermissionRequest) (crbs : List ClusterRoleBinding) (e : String)
    (hc : c.ListClusterRoleBindings = .ok crbs)
    (hns : request.Namespace ≠ "")
    (hrb : c.ListRoleBindings request.Namespace = .error e) :
    ResolvePermission c subject request =
      .error ("failed to list role bindings in namespace " ++ request.Namespace ++ ": " ++ e) := by
  have hb : (request.Namespace != "") = true := by simpa [bne_iff_ne] using hns
  simp [ResolvePermission, hc, hb, hrb]

/-- Successful resolution with no target namespace: the result is exactly the
cluster chains and cluster errors. -/
theorem resolvePermission_ok_empty (c : RBACClient) (subject : Subject)
    (request : PermissionRequest) (crbs : List ClusterRoleBinding)
    (hc : c.ListClusterRoleBindings = .ok crbs)
    (hns : request.Namespace = "") :
    ResolvePermission c subject request = .ok
      { Request := request, Subject := subject,
        Allowed := decide
          ((clusterChains c subject (GetImplicitGroups subject) request crbs).length > 0),
        Grants := clusterChains c subject (GetImplicitGroups subject) request crbs,
        Errors := clusterErrors c subject (GetImplicitGroups subject) crbs } := by
  have hb : (request.Namespace != "") = false := by simp [hns]
  have hfold := foldl_pair_flatMap (processCRB c subject (GetImplicitGroups subject) request)
    (crbChain c subject (GetImplicitGroups subject) request)
    (crbErr c subject (GetImplicitGroups subject))
    (processCRB_eq c subject (GetImplicitGroups subject) request) crbs ([], [])
  simp [ResolvePermission, hc, hb, hfold, clusterChains, clusterErrors]

/-- Successful resolution with a target namespace: cluster chains and errors
first, then the namespace ones. -/
theorem resolvePermission_ok_ns (c : RBACClient) (subject : Subject)
    (request : PermissionRequest) (crbs : List ClusterRoleBinding)
    (rbs : List RoleBinding)
    (hc : c.ListClusterRoleBindings = .ok crbs)
    (hns : request.Namespace ≠ "")
    (hrb : c.ListRoleBindings request.Namespace = .ok rbs) :
    ResolvePermission c subject request = .ok
      { Request := request, Subject := subject,
        Allowed := decide
          ((clusterChains c subject (GetImplicitGroups subject) request crbs ++
            nsChains c subject (GetImplicitGroups subject) request rbs).length > 0),
        Grants := clusterChains c subject (GetImplicitGroups subject) request crbs ++
          nsChains c subject (GetImplicitGroups subject) request rbs,
        Errors := clusterErrors c subject (GetImplicitGroups subject) crbs ++
          nsErrors c subject (GetImplicitGroups subject) request rbs } := by
  have hb : (request.Namespace != "") = true := by simpa [bne_iff_ne] using hns
  have hfold1 := foldl_pair_flatMap (processCRB c subject (GetImplicitGroups subject) request)
    (crbChain c subject (GetImplicitGroups subject) request)
    (crbErr c subject (GetImplicitGroups subject))
    (processCRB_eq c subject (GetImplicitGroups subject) request) crbs ([], [])
  have hfold2 := foldl_pair_flatMap (processRB c subject (GetImplicitGroups subject) request)
    (rbChain c subject (GetImplicitGroups subject) request)
    (rbErr c subject (GetImplicitGroups subject) request)
    (processRB_eq c subject (GetImplicitGroups subject) request) rbs
    (crbs.foldl (processCRB c subject (GetImplicitGroups subject) request) ([], []))
  simp only [ResolvePermission, hc, hb, if_true, hrb]
  rw [hfold2, hfold1]
  simp only [List.nil_append, clusterChains, clusterErrors, nsChains, nsErrors]

/-- Every grant a ClusterRoleBinding contributes is cluster-wide and tagged
with binding kind ClusterRoleBinding. -/
theorem mem_crbChain (c : RBACClient) (subject : Subject) (groups : List String)
    (request : PermissionRequest) (crb : ClusterRoleBinding) (g : PermissionGrant)
    (h : g ∈ crbChain c subject groups request crb) :
    g.Scope = ScopeClusterWide ∧ g.Binding.Kind = "ClusterRoleBinding" := by
  unfold crbChain at h
  split at h
  · split at h
    · simp at h
    · obtain ⟨rule, _, rfl⟩ := List.mem_map.1 h
      exact ⟨rfl, rfl⟩
  · simp at h

/-- Every grant a RoleBinding contributes is namespace-scoped and tagged with
binding kind RoleBinding, whatever the kind of the referenced role. -/
theorem mem_rbChain (c : RBACClient) (subject : Subject) (groups : List String)
    (request : PermissionRequest) (rb : RoleBinding) (g : PermissionGrant)
    (h : g ∈ rbChain c subject groups request rb) :
    g.Scope = ScopeNamespace ∧ g.Binding.Kind = "RoleBinding" := by
  unfold rbChain at h
  split at h
  · split at h
    · split at h
      · simp at h
      · obtain ⟨rule, _, rfl⟩ := List.mem_map.1 h
        exact ⟨rfl, rfl⟩
    · split at h
      · simp at h
      · obtain ⟨rule, _, rfl⟩ := List.mem_map.1 h
        exact ⟨rfl, rfl⟩
  · simp at h

/-! ## Claim C4: grant scope invariant -/

/-- C4: in every successful resolution, a grant is cluster-wide exactly when
its binding is a ClusterRoleBinding, and a grant whose binding is a
RoleBinding is namespace-scoped even when its role is a ClusterRole. -/
theorem resolvePermission_scope_iff (c : RBACClient) (subject : Subject)
    (request : PermissionRequest) (result : PermissionResult)
    (hres : ResolvePermission c subject request = .ok result) :
    ∀ g ∈ result.Grants,
      (g.Scope = ScopeClusterWide ↔ g.Binding.Kind = "ClusterRoleBinding") ∧
      (g.Binding.Kind = "RoleBinding" → g.Scope = ScopeNamespace) := by
  intro g hg
  have main : g.Scope = ScopeClusterWide ∧ g.Binding.Kind = "ClusterRoleBinding" ∨
      g.Scope = ScopeNamespace ∧ g.Binding.Kind = "RoleBinding" := by
    cases hc : c.ListClusterRoleBindings with
    | error e =>
      rw [resolvePermission_fatal_crbList c subject request e hc] at hres
      simp at hres
    | ok crbs =>
      by_cases hns : request.Namespace = ""
      · rw [resolvePermission_ok_empty c subject request crbs hc hns] at hres
        simp only [Except.ok.injEq] at hres
        subst hres
        simp only at hg
        obtain ⟨crb, _, hone⟩ := List.mem_flatMap.1 hg
        exact Or.inl (mem_crbChain c subject _ request crb g hone)
      · cases hrb : c.ListRoleBindings request.Namespace with
        | error e =>
          rw [resolvePermission_fatal_rbList c subject request crbs e hc hns hrb] at hres
          simp at hres
        | ok rbs =>
          rw [resolvePermission_ok_ns c subject request crbs rbs hc hns hrb] at hres
          simp only [Except.ok.injEq] at hres
          subst hres
          simp only at hg
          rcases List.mem_append.1 hg with h | h
          · obtain ⟨crb, _, hone⟩ := List.mem_flatMap.1 h
            exact Or.inl (mem_crbChain c subject _ request crb g hone)
          · obtain ⟨rb, _, hone⟩ := List.mem_flatMap.1 h
            exact Or.inr (mem_rbChain c subject _ request rb g hone)
  rcases main with ⟨h1, h2⟩ | ⟨h1, h2⟩
  · rw [h1, h2]
    exact ⟨by simp, fun h => by simp [ScopeClusterWide, ScopeNamespace] at h ⊢⟩
  · rw [h1, h2]
    refine ⟨?_, fun _ => rfl⟩
    constructor
    · intro h; exact absurd h (by decide)
    · intro h; exact absurd h (by decide)

/-! ### Concrete data source for witnesses -/

/-- A concrete cluster role used by the witnesses. -/
def wCR : ClusterRole :=
  { Name := "secret-reader",
    Rules := [{ Verbs := ["get", "list"], APIGroups := [""], Resources := ["secrets"] }] }

/-- A concrete cluster role binding used by the witnesses. -/
def wCRB : ClusterRoleBinding :=
  { Name := "read-secrets-global",
    Subjects := [{ Kind := "ServiceAccount", Name := "admin-sa", Namespace := "kube-system" }],
    RoleRef := { Kind := "ClusterRole", Name := "secret-reader" } }

/-- A concrete namespaced role used by the witnesses. -/
def wRole : Role :=
  { Name := "secret-reader-ns", Namespace := "default",
    Rules := [{ Verbs := ["get"], APIGroups := [""], Resources := ["secrets"] }] }

/-- A concrete role binding used by the witnesses. -/
def wRB : RoleBinding :=
  { Name := "read-secrets-ns", Namespace := "default",
    Subjects := [{ Kind := "ServiceAccount", Name := "admin-sa", Namespace := "kube-system" }],
    RoleRef := { Kind := "Role", Name := "secret-reader-ns" } }

/-- A concrete healthy data source. -/
def wClient : RBACClient :=
  { ListClusterRoleBindings := .ok [wCRB],
    ListRoleBindings := fun ns => if ns = "default" then .ok [wRB] else .ok [],
    GetClusterRole := fun n => if n = "secret-reader" then .ok wCR else .error "not found",
    GetRole := fun ns n =>
      if ns = "default" ∧ n = "secret-reader-ns" then .ok wRole else .error "not found" }

/-- The witnesses' requesting subject. -/
def wSubject : Subject :=
  { Kind := "ServiceAccount", Name := "admin-sa", Namespace := "kube-system" }

/-- The witnesses' permission request. -/
def wRequest : PermissionRequest :=
  { Verb := "get", APIGroup := "", Resource := "secrets", Namespace := "default" }

/-- The result ResolvePermission produces on the witness data. -/
def wResult : PermissionResult :=
  { Request := wRequest, Subject := wSubject, Allowed := true,
    Grants :=
      [{ Binding := { Kind := "ClusterRoleBinding", Name := "read-secrets-global" },
         Role := { Kind := "ClusterRole", Name := "secret-reader" },
         MatchingRule := { Verbs := ["get", "list"], APIGroups := [""], Resources := ["secrets"] },
         Scope := ScopeClusterWide },
       { Binding := { Kind := "RoleBinding", Name := "read-secrets-ns", Namespace := "default" },
         Role := { Kind := "Role", Name := "secret-reader-ns", Namespace := "default" },
         MatchingRule := { Verbs := ["get"], APIGroups := [""], Resources := ["secrets"] },
         Scope := ScopeNamespace }],
    Errors := [] }

/-- Witness for C4 on the concrete data source. -/
theorem resolvePermission_scope_iff_witness :
    ResolvePermission wClient wSubject wRequest = .ok wResult ∧
    (wResult.Grants.get ⟨1, by decide⟩ ∈ wResult.Grants ∧
     ((wResult.Grants.get ⟨1, by decide⟩).Scope = ScopeClusterWide ↔
       (wResult.Grants.get ⟨1, by decide⟩).Binding.Kind = "ClusterRoleBinding")) := by
  have h : ResolvePermission wClient wSubject wRequest = .ok wResult := by rfl
  have hm : wResult.Grants.get ⟨1, by decide⟩ ∈ wResult.Grants := List.get_mem _ _ _
  exact ⟨h, hm, (resolvePermission_scope_iff wClient wSubject wRequest wResult h _ hm).1⟩

/-! ## Claim C5: get-level failures are non-fatal, list-level failures fatal -/

/-- C5: a failing list call (cluster role bindings, or role bindings of the
requested namespace) aborts ResolvePermission with a hard error, while a
failing get of a binding's referenced role only contributes an entry to
PermissionResult.Errors and no grants, and resolution still succeeds. -/
theorem resolvePermission_error_handling (c : RBACClient) (subject : Subject)
    (request : PermissionRequest) :
    (∀ e, c.ListClusterRoleBindings = .error e →
      ResolvePermission c subject request =
        .error ("failed to list cluster role bindings: " ++ e)) ∧
    (∀ crbs e, c.ListClusterRoleBindings = .ok crbs → request.Namespace ≠ "" →
      c.ListRoleBindings request.Namespace = .error e →
      ResolvePermission c subject request =
        .error ("failed to list role bindings in namespace " ++ request.Namespace ++ ": " ++ e)) ∧
    (∀ crbs rbs, c.ListClusterRoleBindings = .ok crbs → request.Namespace ≠ "" →
      c.ListRoleBindings request.Namespace = .ok rbs →
      ∃ result, ResolvePermission c subject request = .ok result ∧
        result.Errors = clusterErrors c subject (GetImplicitGroups subject) crbs ++
          nsErrors c subject (GetImplicitGroups subject) request rbs ∧
        result.Grants = clusterChains c subject (GetImplicitGroups subject) request crbs ++
          nsChains c subject (GetImplicitGroups subject) request rbs) ∧
    (∀ crb e, bindingMatchesSubject crb.Subjects subject (GetImplicitGroups subject) = true →
      c.GetClusterRole crb.RoleRef.Name = .error e →
      crbChain c subject (GetImplicitGroups subject) request crb = [] ∧
      crbErr c subject (GetImplicitGroups subject) crb =
        ["failed to get cluster role " ++ crb.RoleRef.Name ++ ": " ++ e]) := by
  refine ⟨?_, ?_, ?_, ?_⟩
  · intro e hc
    exact resolvePermission_fatal_crbList c subject request e hc
  · intro crbs e hc hns hrb
    exact resolvePermission_fatal_rbList c subject request crbs e hc hns hrb
  · intro crbs rbs hc hns hrb
    exact ⟨_, resolvePermission_ok_ns c subject request crbs rbs hc hns hrb, rfl, rfl⟩
  · intro crb e hmatch herr
    unfold crbChain crbErr
    rw [if_pos hmatch, if_pos hmatch, herr]
    exact ⟨rfl, rfl⟩

/-- A data source whose cluster-role-binding list call fails. -/
def wBadListClient : RBACClient :=
  { ListClusterRoleBindings := .error "connection refused",
    ListRoleBindings := fun _ => .ok [],
    GetClusterRole := fun _ => .error "not found",
    GetRole := fun _ _ => .error "not found" }

/-- A data source whose list calls succeed but whose get calls all fail. -/
def wBadGetClient : RBACClient :=
  { ListClusterRoleBindings := .ok [wCRB],
    ListRoleBindings := fun _ => .ok [],
    GetClusterRole := fun _ => .error "etcd timeout",
    GetRole := fun _ _ => .error "etcd timeout" }

/-- Witness for C5: the fatal list failure and the non-fatal get failure at
concrete data. -/
theorem resolvePermission_error_handling_witness :
    (ResolvePermission wBadListClient wSubject wRequest =
      .error ("failed to list cluster role bindings: " ++ "connection refused")) ∧
    (crbChain wBadGetClient wSubject (GetImplicitGroups wSubject) wRequest wCRB = [] ∧
     crbErr wBadGetClient wSubject (GetImplicitGroups wSubject) wCRB =
       ["failed to get cluster role " ++ wCRB.RoleRef.Name ++ ": " ++ "etcd timeout"]) :=
  ⟨(resolvePermission_error_handling wBadListClient wSubject wRequest).1
      "connection refused" rfl,
   (resolvePermission_error_handling wBadGetClient wSubject wRequest).2.2.2
      wCRB "etcd timeout" (by decide) rfl⟩

/-! ## Claim C6: encounter order and multiplicity -/

/-- C6: the grants of a successful resolution are exactly the cluster-scope
chains followed by the namespace-scope chains, each in data-source binding
order and, within a binding, in the role's rule order, with no
deduplication; the total count is the sum over bindings of the number of
satisfying rules, and Allowed holds iff that count is positive. -/
theorem resolvePermission_order_multiplicity (c : RBACClient) (subject : Subject)
    (request : PermissionRequest) :
    (∀ crbs result, c.ListClusterRoleBindings = .ok crbs → request.Namespace = "" →
      ResolvePermission c subject request = .ok result →
      result.Grants = clusterChains c subject (GetImplicitGroups subject) request crbs ∧
      (result.Allowed = true ↔ 0 < result.Grants.length)) ∧
    (∀ crbs rbs result, c.ListClusterRoleBindings = .ok crbs → request.Namespace ≠ "" →
      c.ListRoleBindings request.Namespace = .ok rbs →
      ResolvePermission c subject request = .ok result →
      result.Grants = clusterChains c subject (GetImplicitGroups subject) request crbs ++
        nsChains c subject (GetImplicitGroups subject) request rbs ∧
      result.Grants.length =
        ((crbs.map fun crb =>
          (crbChain c subject (GetImplicitGroups subject) request crb).length).sum +
         (rbs.map fun rb =>
          (rbChain c subject (GetImplicitGroups subject) request rb).length).sum) ∧
      (result.Allowed = true ↔ 0 < result.Grants.length)) := by
  constructor
  · intro crbs result hc hns hres
    rw [resolvePermission_ok_empty c subject request crbs hc hns] at hres
    simp only [Except.ok.injEq] at hres
    subst hres
    exact ⟨rfl, by simp⟩
  · intro crbs rbs result hc hns hrb hres
    rw [resolvePermission_ok_ns c subject request crbs rbs hc hns hrb] at hres
    simp only [Except.ok.injEq] at hres
    subst hres
    refine ⟨rfl, ?_, by simp⟩
    simp [clusterChains, nsChains, List.length_flatMap, Function.comp_def]

/-- Witness for C6 on the concrete data source: one cluster chain followed by
one namespace chain, two grants in total, allowed. -/
theorem resolvePermission_order_multiplicity_witness :
    wResult.Grants = clusterChains wClient wSubject (GetImplicitGroups wSubject) wRequest [wCRB] ++
      nsChains wClient wSubject (GetImplicitGroups wSubject) wRequest [wRB] ∧
    wResult.Grants.length = 2 ∧
    (wResult.Allowed = true ↔ 0 < wResult.Grants.length) := by
  have h := (resolvePermission_order_multiplicity wClient wSubject wRequest).2
    [wCRB] [wRB] wResult rfl (by decide) rfl (by rfl)
  exact ⟨h.1, by rfl, h.2.2⟩

/-! ## Claim C10: ResolveAllPermissions is silent about lookup failures -/

/-- A fold appending one grant per element is an append of the map. -/
theorem foldl_append_singleton {α β : Type} (mk : α → β) :
    ∀ (l : List α) (acc : List β),
      l.foldl (fun gs a => gs ++ [mk a]) acc = acc ++ l.map mk := by
  intro l
  induction l with
  | nil => intro acc; simp
  | cons a t ih =>
    intro acc
    rw [List.foldl_cons, ih]
    simp [List.append_assoc]

/-- One cluster-binding step of the enumerator appends exactly that binding's
inventory. -/
theorem allProcessCRB_eq (c : RBACClient) (subject : Subject) (groups : List String)
    (grants : List PermissionGrant) (crb : ClusterRoleBinding) :
    allProcessCRB c subject groups grants crb =
      grants ++ allCrbInventory c subject groups crb := by
  unfold allProcessCRB allCrbInventory
  by_cases h : bindingMatchesSubject crb.Subjects subject groups = true
  · simp only [h, if_true]
    cases hc : c.GetClusterRole crb.RoleRef.Name with
    | error e => simp
    | ok cr => exact foldl_append_singleton (clusterGrant crb cr) cr.Rules grants
  · simp [h]

/-- One role-binding step of the enumerator appends exactly that binding's
inventory. -/
theorem allProcessRB_eq (c : RBACClient) (subject : Subject) (groups : List String)
    (ns : String) (grants : List PermissionGrant) (rb : RoleBinding) :
    allProcessRB c subject groups ns grants rb =
      grants ++ allRbInventory c subject groups ns rb := by
  unfold allProcessRB allRbInventory
  by_cases h : bindingMatchesSubject rb.Subjects subject groups = true
  · simp only [h, if_true]
    by_cases hk : rb.RoleRef.Kind = "ClusterRole"
    · simp only [hk, if_true]
      cases hc : c.GetClusterRole rb.RoleRef.Name with
      | error e => simp
      | ok cr =>
        exact foldl_append_singleton
          (nsGrant rb { Kind := "ClusterRole", Name := cr.Name }) cr.Rules grants
    · simp only [hk, if_false]
      cases hc : c.GetRole ns rb.RoleRef.Name with
      | error e => simp
      | ok role =>
        exact foldl_append_singleton
          (nsGrant rb { Kind := "Role", Name := role.Name, Namespace := role.Namespace })
          role.Rules grants
  · simp [h]

/-- C10: the all-permissions enumerator never reports per-binding lookup
failures.  With the list calls healthy the call succeeds outright and
returns exactly the inventories of the bindings whose role fetch succeeded —
a binding with a failing fetch contributes the empty inventory and leaves no
diagnostic of any kind in the returned grant list (there is no error
channel in it), unlike ResolvePermission which records such failures in
PermissionResult.Errors. -/
theorem resolveAllPermissions_silent (c : RBACClient) (subject : Subject) (ns : String) :
    (∀ crbs, c.ListClusterRoleBindings = .ok crbs → ns = "" →
      ResolveAllPermissions c subject ns =
        .ok (crbs.flatMap (allCrbInventory c subject (GetImplicitGroups subject)))) ∧
    (∀ crbs rbs, c.ListClusterRoleBindings = .ok crbs → ns ≠ "" →
      c.ListRoleBindings ns = .ok rbs →
      ResolveAllPermissions c subject ns =
        .ok (crbs.flatMap (allCrbInventory c subject (GetImplicitGroups subject)) ++
          rbs.flatMap (allRbInventory c subject (GetImplicitGroups subject) ns))) ∧
    (∀ crb e, bindingMatchesSubject crb.Subjects subject (GetImplicitGroups subject) = true →
      c.GetClusterRole crb.RoleRef.Name = .error e →
      allCrbInventory c subject (GetImplicitGroups subject) crb = []) ∧
    (∀ rb e, bindingMatchesSubject rb.Subjects subject (GetImplicitGroups subject) = true →
      rb.RoleRef.Kind = "ClusterRole" →
      c.GetClusterRole rb.RoleRef.Name = .error e →
      allRbInventory c subject (GetImplicitGroups subject) ns rb = []) ∧
    (∀ rb e, bindingMatchesSubject rb.Subjects subject (GetImplicitGroups subject) = true →
      rb.RoleRef.Kind ≠ "ClusterRole" →
      c.GetRole ns rb.RoleRef.Name = .error e →
      allRbInventory c subject (GetImplicitGroups subject) ns rb = []) := by
  refine ⟨?_, ?_, ?_, ?_, ?_⟩
  · intro crbs hc hns
    have hb : (ns != "") = false := by simp [hns]
    have hfold := foldl_single_flatMap (allProcessCRB c subject (GetImplicitGroups subject))
      (allCrbInventory c subject (GetImplicitGroups subject))
      (allProcessCRB_eq c subject (GetImplicitGroups subject)) crbs []
    simp [ResolveAllPermissions, hc, hb, hfold]
  · intro crbs rbs hc hns hrb
    have hb : (ns != "") = true := by simpa [bne_iff_ne] using hns
    have hfold1 := foldl_single_flatMap (allProcessCRB c subject (GetImplicitGroups subject))
      (allCrbInventory c subject (GetImplicitGroups subject))
      (allProcessCRB_eq c subject (GetImplicitGroups subject)) crbs []
    have hfold2 := foldl_single_flatMap (allProcessRB c subject (GetImplicitGroups subject) ns)
      (allRbInventory c subject (GetImplicitGroups subject) ns)
      (allProcessRB_eq c subject (GetImplicitGroups subject) ns) rbs
      (crbs.foldl (allProcessCRB c subject (GetImplicitGroups subject)) [])
    simp only [ResolveAllPermissions, hc, hb, if_true, hrb]
    rw [hfold2, hfold1]
    simp
  · intro crb e hmatch herr
    unfold allCrbInventory
    rw [if_pos hmatch, herr]
  · intro rb e hmatch hk herr
    unfold allRbInventory
    rw [if_pos hmatch, if_pos hk, herr]
  · intro rb e hmatch hk herr
    unfold allRbInventory
    rw [if_pos hmatch, if_neg hk, herr]

/-- Witness for C10: with every get call failing, the enumerator still
succeeds and returns the empty inventory with no diagnostics. -/
theorem resolveAllPermissions_silent_witness :
    (ResolveAllPermissions wBadGetClient wSubject "" =
      .ok ([wCRB].flatMap (allCrbInventory wBadGetClient wSubject (GetImplicitGroups wSubject)))) ∧
    allCrbInventory wBadGetClient wSubject (GetImplicitGroups wSubject) wCRB = [] :=
  ⟨(resolveAllPermissions_silent wBadGetClient wSubject "").1 [wCRB] rfl rfl,
   (resolveAllPermissions_silent wBadGetClient wSubject "").2.2.1 wCRB "etcd timeout"
      (by decide) rfl⟩

/-! ## Risk classifier (pkg/output/risky.go, AnalyzeRiskyPermissions) -/

/-- The "add to existing risk" branch of AnalyzeRiskyPermissions: append the
grant to the first risk of the given category. -/
def addGrantToCategory : List RiskyPermission → String → PermissionGrant → List RiskyPermission
  | [], _, _ => []
  | r :: rs, cat, g =>
    if r.Category = cat then { r with Grants := r.Grants ++ [g] } :: rs
    else r :: addGrantToCategory rs cat g

/-- The risk entry created on the first hit of a category. -/
def newRisk (pat : RiskyPattern) (g : PermissionGrant) : RiskyPermission :=
  { Category := pat.Category, Description := pat.Description,
    Severity := pat.Severity, Grants := [g] }

/-- One pattern test of the inner loop of AnalyzeRiskyPermissions; the state
is the risk list plus the seen-category set. -/
def processRiskyPattern (g : PermissionGrant)
    (st : List RiskyPermission × List String) (pat : RiskyPattern) :
    List RiskyPermission × List String :=
  if matchesRiskyPattern g.MatchingRule pat then
    if st.2.contains pat.Category then
      (addGrantToCategory st.1 pat.Category g, st.2)
    else
      (st.1 ++ [newRisk pat g], st.2 ++ [pat.Category])
  else st

/-- Processing one grant: test it against every catalog signature in order. -/
def processGrantRisky (st : List RiskyPermission × List String)
    (g : PermissionGrant) : List RiskyPermission × List String :=
  RiskyPatterns.foldl (processRiskyPattern g) st

/-- AnalyzeRiskyPermissions from pkg/output/risky.go. -/
def AnalyzeRiskyPermissions (grants : List PermissionGrant) : List RiskyPermission :=
  (grants.foldl processGrantRisky ([], [])).1

/-- Accumulator invariant: the seen-category set holds exactly the
categories present in the risk list. -/
def SeenSync (st : List RiskyPermission × List String) : Prop :=
  ∀ cat : String, st.2.contains cat = true ↔ ∃ r ∈ st.1, r.Category = cat

/-- Accumulator invariant: every cluster-admin risk entry carries severity
critical. -/
def CatSevCA (st : List RiskyPermission × List String) : Prop :=
  ∀ r ∈ st.1, r.Category = "cluster-admin" → r.Severity = "critical"

/-- The goal state: some cluster-admin/critical risk entry holds the grant. -/
def HasCAGrant (g : PermissionGrant) (risks : List RiskyPermission) : Prop :=
  ∃ r ∈ risks, r.Category = "cluster-admin" ∧ r.Severity = "critical" ∧ g ∈ r.Grants

/-- Every entry of addGrantToCategory comes from an entry of the input with
the same category and severity, with at most the one grant appended. -/
theorem addGrantToCategory_shape :
    ∀ (l : List RiskyPermission) (cat : String) (g : PermissionGrant)
      (r' : RiskyPermission), r' ∈ addGrantToCategory l cat g →
      ∃ r ∈ l, r'.Category = r.Category ∧ r'.Severity = r.Severity ∧
        (r'.Grants = r.Grants ∨ r'.Grants = r.Grants ++ [g]) := by
  intro l
  induction l with
  | nil => intro cat g r' h; simp [addGrantToCategory] at h
  | cons r rs ih =>
    intro cat g r' h
    unfold addGrantToCategory at h
    by_cases hc : r.Category = cat
    · rw [if_pos hc] at h
      rcases List.mem_cons.1 h with rfl | htail
      · exact ⟨r, List.mem_cons_self r rs, rfl, rfl, Or.inr rfl⟩
      · exact ⟨r', List.mem_cons_of_mem r htail, rfl, rfl, Or.inl rfl⟩
    · rw [if_neg hc] at h
      rcases List.mem_cons.1 h with rfl | htail
      · exact ⟨r', List.mem_cons_self _ rs, rfl, rfl, Or.inl rfl⟩
      · obtain ⟨r0, hr0, h1, h2, h3⟩ := ih cat g r' htail
        exact ⟨r0, List.mem_cons_of_mem r hr0, h1, h2, h3⟩

/-- Every entry of the input survives addGrantToCategory with the same
category and severity and at least its old grants. -/
theorem addGrantToCategory_surj :
    ∀ (l : List RiskyPermission) (cat : String) (g : PermissionGrant)
      (r : RiskyPermission), r ∈ l →
      ∃ r' ∈ addGrantToCategory l cat g, r'.Category = r.Category ∧
        r'.Severity = r.Severity ∧ ∀ x ∈ r.Grants, x ∈ r'.Grants := by
  intro l
  induction l with
  | nil => intro cat g r h; simp at h
  | cons hd tl ih =>
    intro cat g r h
    unfold addGrantToCategory
    by_cases hc : hd.Category = cat
    · rw [if_pos hc]
      rcases List.mem_cons.1 h with rfl | htail
      · refine ⟨{ r with Grants := r.Grants ++ [g] }, List.mem_cons_self _ tl, rfl, rfl, ?_⟩
        intro x hx; exact List.mem_append_left _ hx
      · exact ⟨r, List.mem_cons_of_mem _ htail, rfl, rfl, fun x hx => hx⟩
    · rw [if_neg hc]
      rcases List.mem_cons.1 h with rfl | htail
      · exact ⟨r, List.mem_cons_self _ _, rfl, rfl, fun x hx => hx⟩
      · obtain ⟨r', hr', h1, h2, h3⟩ := ih cat g r htail
        exact ⟨r', List.mem_cons_of_mem _ hr', h1, h2, h3⟩

/-- When the list already holds the category, addGrantToCategory puts the
grant into an entry of that category whose severity is one of the list's
existing severities for it. -/
theorem addGrantToCategory_adds :
    ∀ (l : List RiskyPermission) (cat : String) (g : PermissionGrant),
      (∃ r ∈ l, r.Category = cat) →
      ∃ r' ∈ addGrantToCategory l cat g, r'.Category = cat ∧ g ∈ r'.Grants ∧
        ∃ r0 ∈ l, r0.Category = cat ∧ r0.Severity = r'.Severity := by
  intro l
  induction l with
  | nil => intro cat g h; simp at h
  | cons hd tl ih =>
    intro cat g h
    unfold addGrantToCategory
    by_cases hc : hd.Category = cat
    · rw [if_pos hc]
      refine ⟨{ hd with Grants := hd.Grants ++ [g] }, List.mem_cons_self _ tl, hc, ?_, ?_⟩
      · exact List.mem_append_right _ (List.mem_singleton.2 rfl)
      · exact ⟨hd, List.mem_cons_self _ _, hc, rfl⟩
    · rw [if_neg hc]
      have htl : ∃ r ∈ tl, r.Category = cat := by
        obtain ⟨r, hr, hcat⟩ := h
        rcases List.mem_cons.1 hr with rfl | htail
        · exact absurd hcat hc
        · exact ⟨r, htail, hcat⟩
      obtain ⟨r', hr', h1, h2, r0, hr0, h3, h4⟩ := ih cat g htl
      exact ⟨r', List.mem_cons_of_mem _ hr', h1, h2, r0, List.mem_cons_of_mem _ hr0, h3, h4⟩

/-- Appending one category to the seen set extends membership by exactly
that category. -/
theorem contains_push_iff (l : List String) (a cat : String) :
    ((l ++ [a]).contains cat = true) ↔ (l.contains cat = true ∨ cat = a) := by
  simp

/-- One pattern step never loses an already-recorded cluster-admin grant. -/
theorem processRiskyPattern_preserve (g0 g : PermissionGrant) (pat : RiskyPattern)
    (st : List RiskyPermission × List String) (h : HasCAGrant g0 st.1) :
    HasCAGrant g0 (processRiskyPattern g st pat).1 := by
  unfold processRiskyPattern
  by_cases hm : matchesRiskyPattern g.MatchingRule pat = true
  · rw [if_pos hm]
    by_cases hs : st.2.contains pat.Category = true
    · rw [if_pos hs]
      obtain ⟨r, hr, hcat, hsev, hg0⟩ := h
      obtain ⟨r', hr', h1, h2, h3⟩ := addGrantToCategory_surj st.1 pat.Category g r hr
      exact ⟨r', hr', h1.trans hcat, h2.trans hsev, h3 g0 hg0⟩
    · rw [if_neg hs]
      obtain ⟨r, hr, hcat, hsev, hg0⟩ := h
      exact ⟨r, List.mem_append_left _ hr, hcat, hsev, hg0⟩
  · rw [if_neg hm]
    exact h

/-- One pattern step preserves the accumulator invariants, for a signature
that is critical if it is cluster-admin. -/
theorem processRiskyPattern_inv (g : PermissionGrant) (pat : RiskyPattern)
    (hpat : pat.Category = "cluster-admin" → pat.Severity = "critical")
    (st : List RiskyPermission × List String)
    (h1 : SeenSync st) (h2 : CatSevCA st) :
    SeenSync (processRiskyPattern g st pat) ∧ CatSevCA (processRiskyPattern g st pat) := by
  unfold processRiskyPattern
  by_cases hm : matchesRiskyPattern g.MatchingRule pat = true
  · rw [if_pos hm]
    by_cases hs : st.2.contains pat.Category = true
    · rw [if_pos hs]
      constructor
      · intro cat
        rw [h1 cat]
        constructor
        · intro ⟨r, hr, hcat⟩
          obtain ⟨r', hr', hc', _, _⟩ := addGrantToCategory_surj st.1 pat.Category g r hr
          exact ⟨r', hr', hc'.trans hcat⟩
        · intro ⟨r', hr', hcat⟩
          obtain ⟨r, hr, hc, _, _⟩ := addGrantToCategory_shape st.1 pat.Category g r' hr'
          exact ⟨r, hr, hc.symm.trans hcat⟩
      · intro r' hr' hcat
        obtain ⟨r, hr, hc, hsev, _⟩ := addGrantToCategory_shape st.1 pat.Category g r' hr'
        exact hsev.trans (h2 r hr (hc.symm.trans hcat))
    · rw [if_neg hs]
      constructor
      · intro cat
        rw [contains_push_iff]
        constructor
        · rintro (hin | rfl)
          · obtain ⟨r, hr, hcat⟩ := (h1 cat).1 hin
            exact ⟨r, List.mem_append_left _ hr, hcat⟩
          · exact ⟨newRisk pat g, List.mem_append_right _ (List.mem_singleton.2 rfl), rfl⟩
        · intro ⟨r, hr, hcat⟩
          rcases List.mem_append.1 hr with hr | hr
          · exact Or.inl ((h1 cat).2 ⟨r, hr, hcat⟩)
          · have he : r = newRisk pat g := List.mem_singleton.1 hr
            subst he
            exact Or.inr hcat.symm
      · intro r hr hcat
        rcases List.mem_append.1 hr with hr | hr
        · exact h2 r hr hcat
        · have : r = newRisk pat g := List.mem_singleton.1 hr
          subst this
          exact hpat hcat
  · rw [if_neg hm]
    exact ⟨h1, h2⟩

/-- A matching cluster-admin test lands the grant in a cluster-admin/critical
risk entry. -/
theorem processRiskyPattern_hit (g : PermissionGrant)
    (st : List RiskyPermission × List String)
    (h1 : SeenSync st) (h2 : CatSevCA st)
    (hmatch : matchesRiskyPattern g.MatchingRule clusterAdminPattern = true) :
    HasCAGrant g (processRiskyPattern g st clusterAdminPattern).1 := by
  unfold processRiskyPattern
  rw [if_pos hmatch]
  by_cases hs : st.2.contains clusterAdminPattern.Category = true
  · rw [if_pos hs]
    have hex : ∃ r ∈ st.1, r.Category = "cluster-admin" := (h1 _).1 hs
    obtain ⟨r', hr', hc, hg, r0, hr0, h3, h4⟩ :=
      addGrantToCategory_adds st.1 "cluster-admin" g hex
    exact ⟨r', hr', hc, h4 ▸ h2 r0 hr0 h3, hg⟩
  · rw [if_neg hs]
    exact ⟨newRisk clusterAdminPattern g,
      List.mem_append_right _ (List.mem_singleton.2 rfl), rfl, rfl,
      List.mem_singleton.2 rfl⟩

/-- Folding a grant over any pattern list keeps a recorded cluster-admin
grant. -/
theorem foldl_patterns_preserve (g0 g : PermissionGrant) :
    ∀ (pats : List RiskyPattern) (st : List RiskyPermission × List String),
      HasCAGrant g0 st.1 → HasCAGrant g0 (pats.foldl (processRiskyPattern g) st).1 := by
  intro pats
  induction pats with
  | nil => intro st h; exact h
  | cons p t ih =>
    intro st h
    rw [List.foldl_cons]
    exact ih _ (processRiskyPattern_preserve g0 g p st h)

/-- Folding a grant over patterns that are critical-if-cluster-admin
preserves the invariants. -/
theorem foldl_patterns_inv (g : PermissionGrant) :
    ∀ (pats : List RiskyPattern) (st : List RiskyPermission × List String),
      (∀ p ∈ pats, p.Category = "cluster-admin" → p.Severity = "critical") →
      SeenSync st → CatSevCA st →
      SeenSync (pats.foldl (processRiskyPattern g) st) ∧
        CatSevCA (pats.foldl (processRiskyPattern g) st) := by
  intro pats
  induction pats with
  | nil => intro st _ h1 h2; exact ⟨h1, h2⟩
  | cons p t ih =>
    intro st hp h1 h2
    rw [List.foldl_cons]
    obtain ⟨h1', h2'⟩ :=
      processRiskyPattern_inv g p (hp p (List.mem_cons_self _ _)) st h1 h2
    exact ih _ (fun q hq => hp q (List.mem_cons_of_mem _ hq)) h1' h2'

/-- Folding a matching grant over a pattern list containing the
cluster-admin signature records the grant under cluster-admin/critical. -/
theorem foldl_patterns_hit (g : PermissionGrant) :
    ∀ (pats : List RiskyPattern) (st : List RiskyPermission × List String),
      (∀ p ∈ pats, p.Category = "cluster-admin" → p.Severity = "critical") →
      clusterAdminPattern ∈ pats →
      matchesRiskyPattern g.MatchingRule clusterAdminPattern = true →
      SeenSync st → CatSevCA st →
      HasCAGrant g (pats.foldl (processRiskyPattern g) st).1 := by
  intro pats
  induction pats with
  | nil => intro st _ hmem; simp at hmem
  | cons p t ih =>
    intro st hp hmem hmatch h1 h2
    rw [List.foldl_cons]
    rcases List.mem_cons.1 hmem with rfl | hmem'
    · exact foldl_patterns_preserve g g t _ (processRiskyPattern_hit g st h1 h2 hmatch)
    · obtain ⟨h1', h2'⟩ :=
        processRiskyPattern_inv g p (hp p (List.mem_cons_self _ _)) st h1 h2
      exact ih _ (fun q hq => hp q (List.mem_cons_of_mem _ hq)) hmem' hmatch h1' h2'

/-- Processing further grants preserves the invariants. -/
theorem foldl_grants_inv :
    ∀ (gs : List PermissionGrant) (st : List RiskyPermission × List String),
      SeenSync st → CatSevCA st →
      SeenSync (gs.foldl processGrantRisky st) ∧ CatSevCA (gs.foldl processGrantRisky st) := by
  intro gs
  induction gs with
  | nil => intro st h1 h2; exact ⟨h1, h2⟩
  | cons g t ih =>
    intro st h1 h2
    rw [List.foldl_cons]
    obtain ⟨h1', h2'⟩ := foldl_patterns_inv g RiskyPatterns st (by decide) h1 h2
    exact ih _ h1' h2'

/-- Processing further grants keeps a recorded cluster-admin grant. -/
theorem foldl_grants_preserve (g0 : PermissionGrant) :
    ∀ (gs : List PermissionGrant) (st : List RiskyPermission × List String),
      HasCAGrant g0 st.1 → HasCAGrant g0 (gs.foldl processGrantRisky st).1 := by
  intro gs
  induction gs with
  | nil => intro st h; exact h
  | cons g t ih =>
    intro st h
    rw [List.foldl_cons]
    exact ih _ (foldl_patterns_preserve g0 g RiskyPatterns st h)

/-! ## Claim C9: the full-wildcard rule classifies as cluster-admin/critical -/

/-- C9: whenever the grant list holds a grant whose matching rule is the full
wildcard (verbs, API groups and resources all equal to the single wildcard),
AnalyzeRiskyPermissions returns a risky-permission entry of category
cluster-admin with severity critical that includes that grant. -/
theorem analyzeRiskyPermissions_clusterAdmin (grants : List PermissionGrant)
    (g : PermissionGrant) (hg : g ∈ grants)
    (hV : g.MatchingRule.Verbs = ["*"])
    (hG : g.MatchingRule.APIGroups = ["*"])
    (hR : g.MatchingRule.Resources = ["*"]) :
    ∃ r ∈ AnalyzeRiskyPermissions grants,
      r.Category = "cluster-admin" ∧ r.Severity = "critical" ∧ g ∈ r.Grants := by
  obtain ⟨l1, l2, rfl⟩ := List.append_of_mem hg
  show HasCAGrant g (AnalyzeRiskyPermissions (l1 ++ g :: l2))
  unfold AnalyzeRiskyPermissions
  rw [List.foldl_append, List.foldl_cons]
  have hinit1 : SeenSync (([], []) : List RiskyPermission × List String) := by
    intro cat; simp
  have hinit2 : CatSevCA (([], []) : List RiskyPermission × List String) := by
    intro r hr; simp at hr
  obtain ⟨h1, h2⟩ := foldl_grants_inv l1 ([], []) hinit1 hinit2
  have hmatch : matchesRiskyPattern g.MatchingRule clusterAdminPattern = true := by
    simp [matchesRiskyPattern, clusterAdminPattern, hV, hG, hR]
  have hhit : HasCAGrant g (processGrantRisky (l1.foldl processGrantRisky ([], [])) g).1 :=
    foldl_patterns_hit g RiskyPatterns _ (by decide) (by decide) hmatch h1 h2
  exact foldl_grants_preserve g l2 _ hhit

/-- The full-wildcard grant used by the C9 witness. -/
def gw : PermissionGrant :=
  { Binding := { Kind := "ClusterRoleBinding", Name := "admin-binding" },
    Role := { Kind := "ClusterRole", Name := "cluster-admin" },
    MatchingRule := { Verbs := ["*"], APIGroups := ["*"], Resources := ["*"] },
    Scope := ScopeClusterWide }

/-- Witness for C9 at the concrete full-wildcard grant. -/
theorem analyzeRiskyPermissions_clusterAdmin_witness :
    gw ∈ [gw] ∧ gw.MatchingRule.Verbs = ["*"] ∧ gw.MatchingRule.APIGroups = ["*"] ∧
    gw.MatchingRule.Resources = ["*"] ∧
    ∃ r ∈ AnalyzeRiskyPermissions [gw],
      r.Category = "cluster-admin" ∧ r.Severity = "critical" ∧ gw ∈ r.Grants :=
  ⟨List.mem_singleton.2 rfl, rfl, rfl, rfl,
   analyzeRiskyPermissions_clusterAdmin [gw] gw (List.mem_singleton.2 rfl) rfl rfl rfl⟩

end RbacWhy
